import Mathlib

/-!
Verification of the "Can You Pi?" digit-memorization game.

The core state machine lives in src/game_logic.py (class Game with fields
pi_decimals, current_index, is_game_over and the method check_input).
The batch-verification handlers live in backend/routes.py (verify_sequence)
and mcp/server.py (verify_pi_sequence); the position quiz in
backend/routes.py (check_position_guess) and mcp/server.py
(check_position_guess); session start in backend/routes.py (start_game).

Python strings are modelled as `List Char`, Python ints as `Int`
(they can go negative, e.g. the unvalidated custom start position),
Python `None` as `Option.none`, and a raised exception
(`HTTPException` or an uncaught `IndexError`) as the `.error` side of
`Except`.  Digit tests are ASCII (`'0'..'9'`), which is exact for every
input the program feeds them.  Response message strings and uuid
generation are formatting only and are not modelled.
-/

deriving instance DecidableEq for Except

namespace CanYouPi

/-- ASCII decimal digit, the case of Python `str.isdigit` exercised here. -/
def isDigitChar (c : Char) : Bool := '0' ≤ c && c ≤ '9'

/-- Python `str.isdigit`: non-empty and every character a digit. -/
def isPyDigit (s : List Char) : Bool := !s.isEmpty && s.all isDigitChar

/-- Python `str.lower`, characterwise. -/
def pyLower (s : List Char) : List Char := s.map Char.toLower

/-- Python indexing `s[i]`: non-negative indices are plain, negative indices
count from the end, anything else raises `IndexError` (here: `none`). -/
def pyIndex (s : List Char) (i : Int) : Option Char :=
  if 0 ≤ i then
    if i < (s.length : Int) then s.get? i.toNat else none
  else
    if -(s.length : Int) ≤ i then s.get? (i + s.length).toNat else none

/-- Python slice `s[:k]` (a negative bound counts from the end). -/
def pySliceTo (s : List Char) (k : Int) : List Char :=
  if 0 ≤ k then s.take k.toNat else s.take ((s.length : Int) + k).toNat

/-- Clamp a Python slice bound into `[0, n]`. -/
def pyClampIdx (n : Nat) (i : Int) : Nat :=
  if i < 0 then (max ((n : Int) + i) 0).toNat else (min i (n : Int)).toNat

/-- Python slice `s[a:b]`. -/
def pySlice (s : List Char) (a b : Int) : List Char :=
  (s.take (pyClampIdx s.length b)).drop (pyClampIdx s.length a)

/-- The Game state machine of src/game_logic.py.  `pi_decimals` is the digit
source the constructor copies from the module constant (loaded from a static
asset file, hence a parameter here); `current_index` starts at 0 and
`is_game_over` at `false`. -/
structure Game where
  pi_decimals : List Char
  current_index : Int
  is_game_over : Bool
deriving DecidableEq

/-- `Game.__init__`: fresh game over a digit source. -/
def Game.new (ds : List Char) : Game := ⟨ds, 0, false⟩

/-- `Game.check_input` from src/game_logic.py, verbatim: an exit token sets
`is_game_over` and yields `(None, None)`; a non-digit input yields
`(None, None)`; otherwise the input is compared with
`pi_decimals[current_index]` (which can raise `IndexError`): on a match the
cursor advances by one and the result is `(True, None)`, otherwise
`is_game_over` is set and the result is `(False, expected_digit)`. -/
def Game.check_input (g : Game) (user_input : List Char) :
    Except Unit ((Option Bool × Option Char) × Game) :=
  if pyLower user_input = "exit".toList then
    .ok ((none, none), { g with is_game_over := true })
  else if !isPyDigit user_input then
    .ok ((none, none), g)
  else
    match pyIndex g.pi_decimals g.current_index with
    | none => .error ()
    | some expected_digit =>
      if user_input = [expected_digit] then
        .ok ((some true, none), { g with current_index := g.current_index + 1 })
      else
        .ok ((some false, some expected_digit), { g with is_game_over := true })

/-- A sample digit source: the first eight fractional digits of Pi, standing
in for the asset file `assets/pi_decimals.txt` in concrete instances. -/
def piSample : List Char := "14159265".toList

/-- In-range Python indexing is ordinary indexing. -/
theorem pyIndex_of_nonneg (s : List Char) (i : Int) (h0 : 0 ≤ i)
    (h1 : i < (s.length : Int)) : pyIndex s i = s.get? i.toNat := by
  simp [pyIndex, h0, h1]

/-- Lowercasing fixes a decimal-digit character. -/
theorem char_toLower_of_digit (c : Char) (hc : isDigitChar c = true) :
    c.toLower = c := by
  have hc' : '0' ≤ c ∧ c ≤ '9' := by
    simpa [isDigitChar, Bool.and_eq_true, decide_eq_true_eq] using hc
  have h9 : c.toNat ≤ 57 := hc'.2
  unfold Char.toLower
  rw [if_neg]
  omega

/-- A single decimal-digit character is never the exit token and always
passes the `isdigit` test. -/
theorem single_digit_valid (c : Char) (hc : isDigitChar c = true) :
    pyLower [c] ≠ ['e', 'x', 'i', 't'] ∧ isPyDigit [c] = true := by
  constructor
  · intro h
    simp [pyLower] at h
  · simp [isPyDigit, List.all, hc]

/-- Core behaviour of `check_input` on a single digit with the cursor in
range, independent of the `is_game_over` flag: match advances the cursor,
mismatch sets the flag and reports the expected digit. -/
theorem check_input_digit (g : Game) (c d : Char)
    (hc : isDigitChar c = true)
    (h0 : 0 ≤ g.current_index)
    (h1 : g.current_index < (g.pi_decimals.length : Int))
    (hd : g.pi_decimals.get? g.current_index.toNat = some d) :
    (c = d →
      g.check_input [c] =
        .ok ((some true, none), { g with current_index := g.current_index + 1 })) ∧
    (c ≠ d →
      g.check_input [c] =
        .ok ((some false, some d), { g with is_game_over := true })) := by
  obtain ⟨hexit, hdig⟩ := single_digit_valid c hc
  have hidx : pyIndex g.pi_decimals g.current_index = some d := by
    rw [pyIndex_of_nonneg _ _ h0 h1]; exact hd
  constructor
  · intro hcd
    subst hcd
    simp [Game.check_input, hexit, hdig, hidx]
  · intro hcd
    have hne : [c] ≠ [d] := by simpa using hcd
    simp [Game.check_input, hexit, hdig, hidx, hne]

/-- Claim C3: on a non-terminal game with the cursor a valid index, a
single decimal-digit input is compared with `pi_decimals[current_index]`;
on a match `check_input` advances the cursor by exactly one and returns
`(True, None)`, on a mismatch it sets `is_game_over`, leaves the cursor
unchanged and returns `(False, pi_decimals[current_index])`. -/
theorem check_input_single_digit_spec (g : Game) (c d : Char)
    (hterm : g.is_game_over = false)
    (hc : isDigitChar c = true)
    (h0 : 0 ≤ g.current_index)
    (h1 : g.current_index < (g.pi_decimals.length : Int))
    (hd : g.pi_decimals.get? g.current_index.toNat = some d) :
    (c = d →
      g.check_input [c] =
        .ok ((some true, none), { g with current_index := g.current_index + 1 })) ∧
    (c ≠ d →
      g.check_input [c] =
        .ok ((some false, some d), { g with is_game_over := true })) :=
  check_input_digit g c d hc h0 h1 hd

/-- Witness for C3: on a fresh game over the Pi digits, the digit 1 is
accepted (cursor 0 to 1) and the digit 9 is rejected with expected digit 1
and the terminal flag set. -/
theorem check_input_single_digit_spec_witness :
    (Game.new piSample).check_input ['1'] =
      .ok ((some true, none), ⟨piSample, 1, false⟩) ∧
    (Game.new piSample).check_input ['9'] =
      .ok ((some false, some '1'), ⟨piSample, 0, true⟩) := by
  constructor
  · have h := (check_input_single_digit_spec (Game.new piSample) '1' '1'
      rfl (by decide) (by decide) (by decide) (by decide)).1 rfl
    exact h
  · have h := (check_input_single_digit_spec (Game.new piSample) '9' '1'
      rfl (by decide) (by decide) (by decide) (by decide)).2 (by decide)
    exact h

/-- Claim C9 (implicit): a multi-character all-digit input passes the
`isdigit` validation, can never equal the single expected character, and is
therefore scored as a wrong guess: `check_input` returns
`(False, pi_decimals[current_index])`, sets `is_game_over`, and leaves the
cursor unchanged. -/
theorem check_input_multi_digit_is_wrong (g : Game) (s : List Char) (d : Char)
    (hterm : g.is_game_over = false)
    (hlen : 2 ≤ s.length)
    (hall : s.all isDigitChar = true)
    (h0 : 0 ≤ g.current_index)
    (h1 : g.current_index < (g.pi_decimals.length : Int))
    (hd : g.pi_decimals.get? g.current_index.toNat = some d) :
    g.check_input s = .ok ((some false, some d), { g with is_game_over := true }) := by
  have hidx : pyIndex g.pi_decimals g.current_index = some d := by
    rw [pyIndex_of_nonneg _ _ h0 h1]; exact hd
  have hexit : pyLower s ≠ ['e', 'x', 'i', 't'] := by
    intro h
    match s, hlen with
    | c :: t, _ =>
      have hc : isDigitChar c = true := by
        simp [List.all_cons] at hall
        exact hall.1
      have hl : c.toLower = 'e' := by
        have hh : pyLower (c :: t) = c.toLower :: pyLower t := rfl
        rw [hh] at h
        exact (List.cons.injEq _ _ _ _ ▸ h).1
      rw [char_toLower_of_digit c hc] at hl
      subst hl
      simp [isDigitChar] at hc
  have hdig : isPyDigit s = true := by
    have : s ≠ [] := by
      intro h; subst h; simp at hlen
    simp [isPyDigit, hall, List.isEmpty_iff, this]
  have hne2 : s ≠ [d] := by
    intro h
    subst h
    simp at hlen
  simp [Game.check_input, hexit, hdig, hidx, hne2]

/-- Witness for C9: the all-digit input "12" on a fresh game over the Pi
digits is scored wrong (expected digit 1), ending the game with the cursor
still 0. -/
theorem check_input_multi_digit_is_wrong_witness :
    (Game.new piSample).check_input ("12".toList) =
      .ok ((some false, some '1'), ⟨piSample, 0, true⟩) := by
  have h := check_input_multi_digit_is_wrong (Game.new piSample) ("12".toList) '1'
    rfl (by decide) (by decide) (by decide) (by decide) (by decide)
  exact h

/-- Counterexample to claim C2: reaching a terminal state (wrong guess 9
against expected digit 1) and then calling `check_input` with the now
expected digit 1 still advances the cursor from 0 to 1 — `check_input`
never consults `is_game_over`, so the terminal state does not block
further cursor advancement. -/
theorem check_input_after_terminal_moves_cursor :
    (Game.new piSample).check_input ['9'] =
      .ok ((some false, some '1'), ⟨piSample, 0, true⟩) ∧
    (Game.check_input ⟨piSample, 0, true⟩ ['1']) =
      .ok ((some true, none), ⟨piSample, 1, true⟩) := by
  decide

/-- Claim C2 amended: `is_game_over` is absorbing as a flag (no
`check_input` call resets it), but it does not freeze the cursor:
`check_input` behaves on a terminal game exactly as on an active one, so a
call whose input matches the expected digit still advances the cursor by
one, and only a mismatching digit leaves it unchanged. -/
theorem check_input_ignores_terminal_flag (g : Game) (c d : Char)
    (hterm : g.is_game_over = true)
    (hc : isDigitChar c = true)
    (h0 : 0 ≤ g.current_index)
    (h1 : g.current_index < (g.pi_decimals.length : Int))
    (hd : g.pi_decimals.get? g.current_index.toNat = some d) :
    (c = d →
      g.check_input [c] =
        .ok ((some true, none), { g with current_index := g.current_index + 1 })) ∧
    (c ≠ d → g.check_input [c] = .ok ((some false, some d), g)) := by
  have h := check_input_digit g c d hc h0 h1 hd
  refine ⟨h.1, fun hcd => ?_⟩
  have h2 := h.2 hcd
  have hg : ({ g with is_game_over := true } : Game) = g := by
    cases g
    simp_all
  rw [hg] at h2
  exact h2

/-- Witness for the amended C2: on the terminal game with cursor 0 over the
Pi digits, the matching digit 1 still advances the cursor to 1. -/
theorem check_input_ignores_terminal_flag_witness :
    (Game.check_input ⟨piSample, 0, true⟩ ['1']) =
      .ok ((some true, none), ⟨piSample, 1, true⟩) := by
  have h := (check_input_ignores_terminal_flag ⟨piSample, 0, true⟩ '1' '1'
    rfl (by decide) (by decide) (by decide) (by decide)).1 rfl
  exact h

/-- Error outcomes of the transport layers: HTTP exceptions in
backend/routes.py, error dictionaries in mcp/server.py, and an uncaught
Python `IndexError` (`indexErr`). -/
inductive HErr where
  | gameNotFound
  | quizNotFound
  | invalidInput
  | noDigits
  | alreadyCompleted
  | outOfRange
  | completedAll
  | countTooSmall
  | indexErr
deriving DecidableEq

/-- Shared normalization of backend/routes.py `verify_sequence` and
mcp/server.py `verify_pi_sequence`: remove every space and every literal
dot, then strip one leading `'3'` if present. -/
def cleanSequence (sequence : List Char) : List Char :=
  let cleaned := (sequence.filter (fun c => c ≠ ' ')).filter (fun c => c ≠ '.')
  match cleaned with
  | '3' :: rest => rest
  | l => l

/-- The `VerifySequenceResponse` of backend/routes.py (`game_id` and the
formatted `message` omitted). -/
structure VerifySequenceResponse where
  sequence_provided : List Char
  digits_checked : Nat
  correct_count : Nat
  all_correct : Bool
  current_score : Int
  wrong_at_position : Option Int
  expected_digit : Option Char
  got_digit : Option Char
  correct_sequence : Option (List Char)
deriving DecidableEq

/-- The digit loop of `verify_sequence` (backend/routes.py): skip non-digit
characters, feed each digit to `check_input`, count correct answers, and
stop at the first wrong digit with
`first_wrong_position = game.current_index - 1` and
`wrong_at_position = first_wrong_position + 1`.  `i` is the enumeration
index and `cleanAll` the whole cleaned sequence (used for the success
count of checked digits). -/
def verifyLoop (sequence : List Char) (game : Game) (chars : List Char)
    (i : Nat) (correct_count : Nat) (cleanAll : List Char) :
    Except HErr (VerifySequenceResponse × Game) :=
  match chars with
  | [] =>
    .ok ({ sequence_provided := sequence
           digits_checked := cleanAll.countP (fun d => isDigitChar d)
           correct_count := correct_count
           all_correct := true
           current_score := game.current_index
           wrong_at_position := none
           expected_digit := none
           got_digit := none
           correct_sequence := none }, game)
  | digit :: rest =>
    if !isDigitChar digit then
      verifyLoop sequence game rest (i + 1) correct_count cleanAll
    else
      match game.check_input [digit] with
      | .error _ => .error .indexErr
      | .ok ((is_correct, expected_digit), game2) =>
        if is_correct = some true then
          verifyLoop sequence game2 rest (i + 1) (correct_count + 1) cleanAll
        else
          let first_wrong_position := game2.current_index - 1
          .ok ({ sequence_provided := sequence
                 digits_checked := i + 1
                 correct_count := correct_count
                 all_correct := false
                 current_score := game2.current_index
                 wrong_at_position := some (first_wrong_position + 1)
                 expected_digit := expected_digit
                 got_digit := some digit
                 correct_sequence :=
                   some ('3' :: '.' :: pySliceTo game2.pi_decimals game2.current_index) },
               game2)

/-- `verify_sequence` of backend/routes.py, after the registry lookup:
normalize, reject an empty run, then run the digit loop. -/
def verify_sequence (game : Game) (sequence : List Char) :
    Except HErr (VerifySequenceResponse × Game) :=
  let clean_sequence := cleanSequence sequence
  if clean_sequence.isEmpty then .error .noDigits
  else verifyLoop sequence game clean_sequence 0 0 clean_sequence

/-- The result dictionary of mcp/server.py `verify_pi_sequence`
(`game_id` and `message` omitted; `current_sequence` is the success-side
extra field). -/
structure VerifyPiResponse where
  sequence_provided : List Char
  digits_checked : Nat
  correct_count : Nat
  all_correct : Bool
  current_score : Int
  wrong_at_position : Option Int
  expected_digit : Option Char
  got_digit : Option Char
  correct_sequence : Option (List Char)
  current_sequence : Option (List Char)
deriving DecidableEq

/-- The digit loop of `verify_pi_sequence` (mcp/server.py): like the HTTP
one, but it records every checked digit in `results` (whose length is the
reported `digits_checked`) and takes the wrong position from
`game.current_index` read after the failed check, so
`wrong_at_position = current_index + 1`. -/
def verifyPiLoop (sequence : List Char) (game : Game) (chars : List Char)
    (results : List (Char × Int × Bool)) (correct_count : Nat) :
    Except HErr (VerifyPiResponse × Game) :=
  match chars with
  | [] =>
    .ok ({ sequence_provided := sequence
           digits_checked := results.length
           correct_count := correct_count
           all_correct := true
           current_score := game.current_index
           wrong_at_position := none
           expected_digit := none
           got_digit := none
           correct_sequence := none
           current_sequence :=
             some ('3' :: '.' :: pySliceTo game.pi_decimals game.current_index) },
         game)
  | digit :: rest =>
    if !isDigitChar digit then
      verifyPiLoop sequence game rest results correct_count
    else
      match game.check_input [digit] with
      | .error _ => .error .indexErr
      | .ok ((is_correct, expected_digit), game2) =>
        let position := game2.current_index
        let results2 := results ++ [(digit, position + 1, is_correct == some true)]
        if is_correct = some true then
          verifyPiLoop sequence game2 rest results2 (correct_count + 1)
        else
          .ok ({ sequence_provided := sequence
                 digits_checked := results2.length
                 correct_count := correct_count
                 all_correct := false
                 current_score := game2.current_index
                 wrong_at_position := some (position + 1)
                 expected_digit := expected_digit
                 got_digit := some digit
                 correct_sequence :=
                   some ('3' :: '.' :: pySliceTo game2.pi_decimals game2.current_index)
                 current_sequence := none },
               game2)

/-- `verify_pi_sequence` of mcp/server.py, after the registry lookup. -/
def verify_pi_sequence (game : Game) (sequence : List Char) :
    Except HErr (VerifyPiResponse × Game) :=
  let clean_sequence := cleanSequence sequence
  if clean_sequence.isEmpty then .error .noDigits
  else verifyPiLoop sequence game clean_sequence [] 0

/-- The `VerifyResult` record of the specification: digits checked, correct
count, all-correct flag, wrong position, expected digit, received digit,
and the resulting score. -/
structure SpecVerifyResult where
  digitsChecked : Nat
  correctCount : Nat
  allCorrect : Bool
  wrongAtPosition : Option Int
  expectedDigit : Option Char
  gotDigit : Option Char
  finalScore : Int
deriving DecidableEq

/-- The specification-level `VerifyResult` of an HTTP verification
response. -/
def routesVerifyResult (r : VerifySequenceResponse) : SpecVerifyResult :=
  ⟨r.digits_checked, r.correct_count, r.all_correct, r.wrong_at_position,
   r.expected_digit, r.got_digit, r.current_score⟩

/-- The specification-level `VerifyResult` of an MCP verification
result. -/
def mcpVerifyResult (r : VerifyPiResponse) : SpecVerifyResult :=
  ⟨r.digits_checked, r.correct_count, r.all_correct, r.wrong_at_position,
   r.expected_digit, r.got_digit, r.current_score⟩

/-- Claim C1 evaluated on the code: on a fresh game whose digit source
begins with 1, verifying "99999" stops at the first digit with
`all_correct = false`, `digits_checked = 1`, `expected_digit = '1'`,
`got_digit = '9'` and score 0 in both transports, but the HTTP
`verify_sequence` reports `wrong_at_position = 0` (it subtracts one from
the unadvanced cursor) while the MCP `verify_pi_sequence` reports the
claimed `wrong_at_position = 1`. -/
theorem verify_first_digit_wrong_positions :
    (verify_sequence (Game.new piSample) ("99999".toList)).map
        (fun p => (routesVerifyResult p.1, p.2)) =
      .ok (⟨1, 0, false, some 0, some '1', some '9', 0⟩, ⟨piSample, 0, true⟩) ∧
    (verify_pi_sequence (Game.new piSample) ("99999".toList)).map
        (fun p => (mcpVerifyResult p.1, p.2)) =
      .ok (⟨1, 0, false, some 1, some '1', some '9', 0⟩, ⟨piSample, 0, true⟩) := by
  decide

/-- The `verify_sequence` loop result does not depend on the raw input
string except through its `sequence_provided` echo, which the
specification projection discards. -/
theorem verifyLoop_raw_irrelevant (chars : List Char) :
    ∀ (game : Game) (i cc : Nat) (cleanAll seq1 seq2 : List Char),
      (verifyLoop seq1 game chars i cc cleanAll).map
          (fun p => (routesVerifyResult p.1, p.2)) =
        (verifyLoop seq2 game chars i cc cleanAll).map
          (fun p => (routesVerifyResult p.1, p.2)) := by
  induction chars with
  | nil =>
    intro game i cc cleanAll s1 s2
    rfl
  | cons digit rest ih =>
    intro game i cc cleanAll s1 s2
    rw [verifyLoop, verifyLoop]
    cases hdig : isDigitChar digit with
    | false =>
      simp only [hdig, Bool.not_false, if_true]
      exact ih game (i + 1) cc cleanAll s1 s2
    | true =>
      simp only [hdig, Bool.not_true, if_false]
      cases hres : Game.check_input game [digit] with
      | error e => rfl
      | ok val =>
        obtain ⟨⟨ic, ed⟩, g2⟩ := val
        by_cases hic : ic = some true
        · simp only [hic, if_true]
          exact ih g2 (i + 1) (cc + 1) cleanAll s1 s2
        · simp only [hic, if_false]
          rfl

/-- The `verify_pi_sequence` loop result does not depend on the raw input
string except through its `sequence_provided` echo. -/
theorem verifyPiLoop_raw_irrelevant (chars : List Char) :
    ∀ (game : Game) (results : List (Char × Int × Bool)) (cc : Nat)
      (seq1 seq2 : List Char),
      (verifyPiLoop seq1 game chars results cc).map
          (fun p => (mcpVerifyResult p.1, p.2)) =
        (verifyPiLoop seq2 game chars results cc).map
          (fun p => (mcpVerifyResult p.1, p.2)) := by
  induction chars with
  | nil =>
    intro game results cc s1 s2
    rfl
  | cons digit rest ih =>
    intro game results cc s1 s2
    rw [verifyPiLoop, verifyPiLoop]
    cases hdig : isDigitChar digit with
    | false =>
      simp only [hdig, Bool.not_false, if_true]
      exact ih game results cc s1 s2
    | true =>
      simp only [hdig, Bool.not_true, if_false]
      cases hres : Game.check_input game [digit] with
      | error e => rfl
      | ok val =>
        obtain ⟨⟨ic, ed⟩, g2⟩ := val
        by_cases hic : ic = some true
        · simp only [hic, if_true]
          exact ih g2 _ (cc + 1) s1 s2
        · simp only [hic, if_false]
          rfl

/-- Claim C5: for any starting game state, batch verification of the raw
inputs "3.1 4 1 5", "3141 5" and "31415" yields identical
specification-level `VerifyResult` values (and identical final game
states), in both the HTTP and the MCP transport: all three normalize to
the candidate run "1415". -/
theorem verify_whitespace_and_prefix_irrelevant (game : Game) :
    ((verify_sequence game ("3.1 4 1 5".toList)).map
          (fun p => (routesVerifyResult p.1, p.2)) =
        (verify_sequence game ("3141 5".toList)).map
          (fun p => (routesVerifyResult p.1, p.2)) ∧
      (verify_sequence game ("3141 5".toList)).map
          (fun p => (routesVerifyResult p.1, p.2)) =
        (verify_sequence game ("31415".toList)).map
          (fun p => (routesVerifyResult p.1, p.2))) ∧
    ((verify_pi_sequence game ("3.1 4 1 5".toList)).map
          (fun p => (mcpVerifyResult p.1, p.2)) =
        (verify_pi_sequence game ("3141 5".toList)).map
          (fun p => (mcpVerifyResult p.1, p.2)) ∧
      (verify_pi_sequence game ("3141 5".toList)).map
          (fun p => (mcpVerifyResult p.1, p.2)) =
        (verify_pi_sequence game ("31415".toList)).map
          (fun p => (mcpVerifyResult p.1, p.2))) := by
  have h1 : cleanSequence ("3.1 4 1 5".toList) = '1' :: '4' :: '1' :: '5' :: [] := by
    decide
  have h2 : cleanSequence ("3141 5".toList) = '1' :: '4' :: '1' :: '5' :: [] := by
    decide
  have h3 : cleanSequence ("31415".toList) = '1' :: '4' :: '1' :: '5' :: [] := by
    decide
  refine ⟨⟨?_, ?_⟩, ⟨?_, ?_⟩⟩
  · simp only [verify_sequence, h1, h2, List.isEmpty_cons, if_false]
    exact verifyLoop_raw_irrelevant _ game 0 0 _ _ _
  · simp only [verify_sequence, h2, h3, List.isEmpty_cons, if_false]
    exact verifyLoop_raw_irrelevant _ game 0 0 _ _ _
  · simp only [verify_pi_sequence, h1, h2, List.isEmpty_cons, if_false]
    exact verifyPiLoop_raw_irrelevant _ game [] 0 _ _
  · simp only [verify_pi_sequence, h2, h3, List.isEmpty_cons, if_false]
    exact verifyPiLoop_raw_irrelevant _ game [] 0 _ _

/-- A single correct step of `check_input`: a digit matching the digit
source at a non-negative cursor advances the cursor. -/
theorem check_input_correct_step (ds : List Char) (j : Int) (b : Bool) (c : Char)
    (hc : isDigitChar c = true) (h0 : 0 ≤ j)
    (hk : ds.get? j.toNat = some c) :
    Game.check_input ⟨ds, j, b⟩ [c] = .ok ((some true, none), ⟨ds, j + 1, b⟩) := by
  have hlt : j.toNat < ds.length := List.get?_eq_some.mp hk |>.1
  have h1 : j < (ds.length : Int) := by omega
  exact (check_input_digit ⟨ds, j, b⟩ c c hc h0 h1 hk).1 rfl

/-- Running the HTTP verification loop over a run of digits that all match
the digit source from the cursor on: every digit is accepted, the correct
count grows by the length of the run, and the cursor ends up advanced by
that length. -/
theorem verifyLoop_all_match (seq cleanAll : List Char) :
    ∀ (chars ds : List Char) (j : Int) (b : Bool) (i cc : Nat),
      0 ≤ j →
      (∀ (k : Nat) (c : Char), chars.get? k = some c →
        isDigitChar c = true ∧ ds.get? (j.toNat + k) = some c) →
      verifyLoop seq ⟨ds, j, b⟩ chars i cc cleanAll =
        .ok ({ sequence_provided := seq
               digits_checked := cleanAll.countP (fun d => isDigitChar d)
               correct_count := cc + chars.length
               all_correct := true
               current_score := j + chars.length
               wrong_at_position := none
               expected_digit := none
               got_digit := none
               correct_sequence := none }, ⟨ds, j + chars.length, b⟩) := by
  intro chars
  induction chars with
  | nil =>
    intro ds j b i cc h0 hmatch
    rw [verifyLoop]
    simp
  | cons d rest ih =>
    intro ds j b i cc h0 hmatch
    obtain ⟨hdig, hget⟩ := hmatch 0 d rfl
    rw [verifyLoop]
    simp only [hdig, Bool.not_true, if_false]
    rw [check_input_correct_step ds j b d hdig h0 (by simpa using hget)]
    have hside : ∀ (k : Nat) (c : Char), rest.get? k = some c →
        isDigitChar c = true ∧ ds.get? ((j + 1).toNat + k) = some c := by
      intro k c hk
      have h := hmatch (k + 1) c (by simpa using hk)
      have ht : (j + 1).toNat + k = j.toNat + (k + 1) := by omega
      rw [ht]
      exact h
    have hrec := ih ds (j + 1) b (i + 1) (cc + 1) (by omega) hside
    simp [hrec, VerifySequenceResponse.mk.injEq, Game.mk.injEq]
    constructor
    · omega
    · ring_nf

/-- Running the MCP verification loop over a run of digits that all match
the digit source from the cursor on: every digit is accepted. -/
theorem verifyPiLoop_all_match (seq : List Char) :
    ∀ (chars ds : List Char) (j : Int) (b : Bool)
      (results : List (Char × Int × Bool)) (cc : Nat),
      0 ≤ j →
      (∀ (k : Nat) (c : Char), chars.get? k = some c →
        isDigitChar c = true ∧ ds.get? (j.toNat + k) = some c) →
      ∃ results2 : List (Char × Int × Bool),
        verifyPiLoop seq ⟨ds, j, b⟩ chars results cc =
          .ok ({ sequence_provided := seq
                 digits_checked := results2.length
                 correct_count := cc + chars.length
                 all_correct := true
                 current_score := j + chars.length
                 wrong_at_position := none
                 expected_digit := none
                 got_digit := none
                 correct_sequence := none
                 current_sequence :=
                   some ('3' :: '.' ::
                     pySliceTo ds (j + chars.length)) },
               ⟨ds, j + chars.length, b⟩) := by
  intro chars
  induction chars with
  | nil =>
    intro ds j b results cc h0 hmatch
    refine ⟨results, ?_⟩
    rw [verifyPiLoop]
    simp
  | cons d rest ih =>
    intro ds j b results cc h0 hmatch
    obtain ⟨hdig, hget⟩ := hmatch 0 d rfl
    rw [verifyPiLoop]
    simp only [hdig, Bool.not_true, if_false]
    rw [check_input_correct_step ds j b d hdig h0 (by simpa using hget)]
    have hside : ∀ (k : Nat) (c : Char), rest.get? k = some c →
        isDigitChar c = true ∧ ds.get? ((j + 1).toNat + k) = some c := by
      intro k c hk
      have h := hmatch (k + 1) c (by simpa using hk)
      have ht : (j + 1).toNat + k = j.toNat + (k + 1) := by omega
      rw [ht]
      exact h
    obtain ⟨results2, hrec⟩ := ih ds (j + 1) b
      (results ++ [(d, j + 1 + 1, true)]) (cc + 1) (by omega) hside
    refine ⟨results2, ?_⟩
    simp [hrec, VerifyPiResponse.mk.injEq, Game.mk.injEq]
    refine ⟨⟨?_, ?_, ?_⟩, ?_⟩
    · omega
    · ring_nf
    · ring_nf
    · ring_nf

/-- Claim C6: on a fresh game whose digit source begins with 1, 4, 1, 5, 9,
batch-verifying "3.14159" (in either transport) reports
`all_correct = true` with `correct_count = 5` and leaves the cursor at 5. -/
theorem verify_pi_prefix_all_correct (rest : List Char) :
    ((verify_sequence (Game.new ('1' :: '4' :: '1' :: '5' :: '9' :: rest))
          ("3.14159".toList)).map
        (fun p => (p.1.all_correct, p.1.correct_count, p.2.current_index)) =
      .ok (true, 5, 5)) ∧
    ((verify_pi_sequence (Game.new ('1' :: '4' :: '1' :: '5' :: '9' :: rest))
          ("3.14159".toList)).map
        (fun p => (p.1.all_correct, p.1.correct_count, p.2.current_index)) =
      .ok (true, 5, 5)) := by
  have hclean : cleanSequence ("3.14159".toList) =
      '1' :: '4' :: '1' :: '5' :: '9' :: [] := by decide
  have hmatch : ∀ (k : Nat) (c : Char),
      ('1' :: '4' :: '1' :: '5' :: '9' :: [] : List Char).get? k = some c →
      isDigitChar c = true ∧
        ('1' :: '4' :: '1' :: '5' :: '9' :: rest).get? ((0 : Int).toNat + k) = some c := by
    intro k c hk
    match k with
    | 0 => cases hk; exact ⟨rfl, rfl⟩
    | 1 => cases hk; exact ⟨rfl, rfl⟩
    | 2 => cases hk; exact ⟨rfl, rfl⟩
    | 3 => cases hk; exact ⟨rfl, rfl⟩
    | 4 => cases hk; exact ⟨rfl, rfl⟩
    | n + 5 => simp [List.get?] at hk
  constructor
  · simp only [verify_sequence, hclean, List.isEmpty_cons, if_false]
    rw [show (Game.new ('1' :: '4' :: '1' :: '5' :: '9' :: rest)) =
      (⟨'1' :: '4' :: '1' :: '5' :: '9' :: rest, 0, false⟩ : Game) from rfl]
    rw [verifyLoop_all_match _ _ _ _ 0 false 0 0 le_rfl hmatch]
    rfl
  · simp only [verify_pi_sequence, hclean, List.isEmpty_cons, if_false]
    rw [show (Game.new ('1' :: '4' :: '1' :: '5' :: '9' :: rest)) =
      (⟨'1' :: '4' :: '1' :: '5' :: '9' :: rest, 0, false⟩ : Game) from rfl]
    obtain ⟨results2, hrec⟩ :=
      verifyPiLoop_all_match _ _ _ 0 false [] 0 le_rfl hmatch
    rw [hrec]
    rfl

/-- The `StartGameRequest` of backend/routes.py: `mode` (1 standard,
2 custom) and a 1-indexed `start_position`, both plain integers with no
validation constraint. -/
structure StartGameRequest where
  mode : Int
  start_position : Int
deriving DecidableEq

/-- The game created by `start_game` in backend/routes.py: a fresh Game,
whose cursor is overwritten with `start_position - 1` in custom mode —
without any validation of `start_position`.  (Storing the game in the
registry and assembling the response are omitted.) -/
def start_game (ds : List Char) (request : StartGameRequest) : Game :=
  let game := Game.new ds
  if request.mode = 2 then
    { game with current_index := request.start_position - 1 }
  else
    game

/-- Counterexample to claim C4: a custom-mode start request with
`start_position = 0` creates a stored game whose cursor is -1, violating
`0 <= cursor`. -/
theorem start_game_creates_negative_cursor :
    (start_game piSample ⟨2, 0⟩).current_index < 0 := by
  decide

/-- Claim C4 amended: across any `check_input` call that returns normally
the digit source is untouched and the cursor never decreases (the bounds
`0 <= cursor <= length` are preserved whenever they held before the call),
and standard-mode `start_game` creates a game with cursor 0; custom mode,
however, writes `start_position - 1` unvalidated, so the bounds can be
violated at creation (see the counterexample). -/
theorem cursor_monotone_and_bounds_preserved :
    (∀ (g : Game) (input : List Char) (r : Option Bool × Option Char) (g2 : Game),
      g.check_input input = .ok (r, g2) →
      g2.pi_decimals = g.pi_decimals ∧
      g.current_index ≤ g2.current_index ∧
      (0 ≤ g.current_index ∧ g.current_index ≤ (g.pi_decimals.length : Int) →
        0 ≤ g2.current_index ∧ g2.current_index ≤ (g.pi_decimals.length : Int))) ∧
    (∀ (ds : List Char) (request : StartGameRequest),
      request.mode ≠ 2 → start_game ds request = Game.new ds) := by
  constructor
  · intro g input r g2 h
    unfold Game.check_input at h
    split at h
    · simp only [Except.ok.injEq, Prod.mk.injEq] at h
      obtain ⟨-, hg⟩ := h
      subst hg
      exact ⟨rfl, le_rfl, fun hb => hb⟩
    · split at h
      · simp only [Except.ok.injEq, Prod.mk.injEq] at h
        obtain ⟨-, hg⟩ := h
        subst hg
        exact ⟨rfl, le_rfl, fun hb => hb⟩
      · split at h
        · simp at h
        · next expected heq =>
          split at h
          · simp only [Except.ok.injEq, Prod.mk.injEq] at h
            obtain ⟨-, hg⟩ := h
            have hpi : g2.pi_decimals = g.pi_decimals := by rw [← hg]
            have hci : g2.current_index = g.current_index + 1 := by rw [← hg]
            refine ⟨hpi, by omega, fun hb => ?_⟩
            have hlt : g.current_index < (g.pi_decimals.length : Int) := by
              by_contra hge
              rw [pyIndex] at heq
              rw [if_pos hb.1, if_neg (by omega)] at heq
              exact Option.noConfusion heq
            constructor
            · omega
            · omega
          · simp only [Except.ok.injEq, Prod.mk.injEq] at h
            obtain ⟨-, hg⟩ := h
            have hpi : g2.pi_decimals = g.pi_decimals := by rw [← hg]
            have hci : g2.current_index = g.current_index := by rw [← hg]
            exact ⟨hpi, by omega, fun hb => by omega⟩
  · intro ds request hmode
    unfold start_game
    rw [if_neg hmode]

/-- Witness for the amended C4: accepting the digit 1 on a fresh game over
the Pi digits keeps the digit source, moves the cursor from 0 up to 1, and
keeps the cursor within bounds. -/
theorem cursor_monotone_and_bounds_preserved_witness :
    (⟨piSample, 1, false⟩ : Game).pi_decimals = (Game.new piSample).pi_decimals ∧
    (Game.new piSample).current_index ≤ (⟨piSample, 1, false⟩ : Game).current_index := by
  have h := cursor_monotone_and_bounds_preserved.1 (Game.new piSample) ['1']
    (some true, none) ⟨piSample, 1, false⟩ (by decide)
  exact ⟨h.1, h.2.1⟩

/-- The `DecimalGuessGame` record of backend/routes.py: a quizzed position,
the expected digit there, and the answered flag `is_done`. -/
structure DecimalGuessGame where
  position : Int
  expected_digit : Char
  is_done : Bool
deriving DecidableEq

/-- The `CheckGuessResponse` of backend/routes.py (`quiz_id` and `message`
omitted). -/
structure CheckGuessResponse where
  position : Int
  guess : List Char
  correct : Bool
  expected_digit : Option Char
deriving DecidableEq

/-- `check_position_guess` of backend/routes.py, after the registry lookup:
reject an already-answered quiz, validate that the guess is one decimal
digit, mark the quiz done, and compare the guess with the stored expected
digit. -/
def check_position_guess (quiz : DecimalGuessGame) (guess : List Char) :
    Except HErr (CheckGuessResponse × DecimalGuessGame) :=
  if quiz.is_done then .error .alreadyCompleted
  else if ¬(isPyDigit guess = true ∧ guess.length = 1) then .error .invalidInput
  else
    let quiz2 := { quiz with is_done := true }
    if guess = [quiz.expected_digit] then
      .ok (⟨quiz.position, guess, true, none⟩, quiz2)
    else
      .ok (⟨quiz.position, guess, false, some quiz.expected_digit⟩, quiz2)

/-- The session registry: the in-memory `games` dictionary, holding the
stored Game objects keyed by their generated identifiers. -/
abbrev Registry := List (String × Game)

/-- `games.get(game_id)` on the in-memory dictionary. -/
def regGet (games : Registry) (game_id : String) : Option Game :=
  (games.find? (fun p => p.1 == game_id)).map (fun p => p.2)

/-- `check_position_guess` of mcp/server.py: it looks the stored Game up
under the quiz id, validates the guess, and compares it against
`pi_decimals[position - 1]` — it keeps no answered flag and never mutates
anything. -/
def mcp_check_position_guess (games : Registry) (quiz_id : String)
    (guess : List Char) (position : Int) :
    Except HErr CheckGuessResponse × Registry :=
  match regGet games quiz_id with
  | none => (.error .quizNotFound, games)
  | some game =>
    if ¬(isPyDigit guess = true ∧ guess.length = 1) then
      (.error .invalidInput, games)
    else
      match pyIndex game.pi_decimals (position - 1) with
      | none => (.error .indexErr, games)
      | some expected_digit =>
        if guess = [expected_digit] then
          (.ok ⟨position, guess, true, none⟩, games)
        else
          (.ok ⟨position, guess, false, some expected_digit⟩, games)

/-- Counterexample to claim C7: store a fresh game under the MCP quiz id
"q1" (as `guess_pi_position` does) and check the guess 1 against position 1
twice in a row: the first call reports correctness, and the second call —
on the registry state the first call left behind — reports correctness
again instead of an already-answered error: the MCP quiz keeps no answered
flag. -/
theorem mcp_quiz_check_twice_reports_correct :
    (mcp_check_position_guess [("q1", Game.new piSample)] "q1" ['1'] 1).1 =
      .ok ⟨1, ['1'], true, none⟩ ∧
    (mcp_check_position_guess
        (mcp_check_position_guess [("q1", Game.new piSample)] "q1" ['1'] 1).2
        "q1" ['1'] 1).1 =
      .ok ⟨1, ['1'], true, none⟩ := by
  decide

/-- Claim C7 amended: the HTTP quiz endpoint answers exactly once — any
`check_position_guess` call that returns a result (a valid single-digit
guess on an unanswered quiz) marks the quiz done, and every subsequent
check of that quiz reports the already-completed error regardless of the
guess; the MCP tool of the same name keeps no answered flag and can report
correctness repeatedly (see the counterexample). -/
theorem quiz_answered_once_http (quiz : DecimalGuessGame) (guess : List Char)
    (r : CheckGuessResponse) (quiz2 : DecimalGuessGame)
    (h : check_position_guess quiz guess = .ok (r, quiz2)) :
    quiz2.is_done = true ∧
    ∀ guess2 : List Char,
      check_position_guess quiz2 guess2 = .error .alreadyCompleted := by
  unfold check_position_guess at h
  split at h
  · simp at h
  · split at h
    · simp at h
    · have hq : quiz2 = { quiz with is_done := true } := by
        split at h <;>
          (simp only [Except.ok.injEq, Prod.mk.injEq] at h; exact h.2.symm)
      have hdone : quiz2.is_done = true := by rw [hq]
      refine ⟨hdone, fun guess2 => ?_⟩
      unfold check_position_guess
      rw [if_pos hdone]

/-- Witness for the amended C7: answering the quiz on position 1 with the
correct digit 1 marks it done, and a later guess 9 is rejected as already
completed. -/
theorem quiz_answered_once_http_witness :
    check_position_guess ⟨1, '1', true⟩ ['9'] = .error .alreadyCompleted := by
  have h := quiz_answered_once_http ⟨1, '1', false⟩ ['1']
    ⟨1, ['1'], true, none⟩ ⟨1, '1', true⟩ (by decide)
  exact h.2 ['9']

/-- Modelled from the spec: `Game.is_complete` is called by the HTTP and
MCP hint handlers (and other callers in this repository) but its body is
absent from src/game_logic.py, which defines only the constructor,
`check_input` and the legacy CLI loop; specification section 4.1 declares
`isComplete()` true iff `cursor >= length(DigitSource)`, with no side
effect. -/
def Game.is_complete (g : Game) : Bool :=
  (g.pi_decimals.length : Int) ≤ g.current_index

/-- The `GameStatusResponse` of backend/routes.py and the status dictionary
of mcp/server.py (`game_id` omitted). -/
structure GameStatusResponse where
  current_position : Int
  score : Int
  sequence_so_far : List Char
  next_10_digits : List Char
  total_digits_available : Nat
deriving DecidableEq

/-- The `HintResponse` of backend/routes.py and the hint dictionary of
mcp/server.py (`game_id` and `message` omitted). -/
structure HintResponse where
  hint : List Char
  start_position : Int
  count : Nat
deriving DecidableEq

/-- `get_game_status` of backend/routes.py: look the game up and read its
cursor, recalled prefix, next ten digits and total length.  The handler
contains no assignment, so it is modelled as returning the registry it was
given. -/
def get_game_status (games : Registry) (game_id : String) :
    Except HErr GameStatusResponse × Registry :=
  match regGet games game_id with
  | none => (.error .gameNotFound, games)
  | some game =>
    (.ok ⟨game.current_index + 1, game.current_index,
      '3' :: '.' :: pySliceTo game.pi_decimals game.current_index,
      pySlice game.pi_decimals game.current_index (game.current_index + 10),
      game.pi_decimals.length⟩, games)

/-- `get_hint` of backend/routes.py: 404 for an unknown game, 400 on a
completed game, 400 for `count < 1`, otherwise the next
`min(count, remaining)` digits.  No assignment anywhere. -/
def get_hint (games : Registry) (game_id : String) (count : Int) :
    Except HErr HintResponse × Registry :=
  match regGet games game_id with
  | none => (.error .gameNotFound, games)
  | some game =>
    if game.is_complete then (.error .completedAll, games)
    else if count < 1 then (.error .countTooSmall, games)
    else
      let start := game.current_index
      let stop := min (start + count) (game.pi_decimals.length : Int)
      let next_digits := pySlice game.pi_decimals start stop
      (.ok ⟨next_digits, start + 1, next_digits.length⟩, games)

/-- `get_pi_hint` of mcp/server.py: like `get_hint` but with no `count`
validation, and the completed case is an ordinary message dictionary
(modelled with the same outcome tag). -/
def get_pi_hint (games : Registry) (game_id : String) (count : Int) :
    Except HErr HintResponse × Registry :=
  match regGet games game_id with
  | none => (.error .gameNotFound, games)
  | some game =>
    if game.is_complete then (.error .completedAll, games)
    else
      let start := game.current_index
      let stop := min (start + count) (game.pi_decimals.length : Int)
      let next_digits := pySlice game.pi_decimals start stop
      (.ok ⟨next_digits, start + 1, next_digits.length⟩, games)

/-- `get_game_status` of mcp/server.py: the same read-only field access as
the HTTP status handler. -/
def mcp_get_game_status (games : Registry) (game_id : String) :
    Except HErr GameStatusResponse × Registry :=
  match regGet games game_id with
  | none => (.error .gameNotFound, games)
  | some game =>
    (.ok ⟨game.current_index + 1, game.current_index,
      '3' :: '.' :: pySliceTo game.pi_decimals game.current_index,
      pySlice game.pi_decimals game.current_index (game.current_index + 10),
      game.pi_decimals.length⟩, games)

/-- Claim C10 (implicit frame property): for every stored game and every
`count >= 1`, the status and hint operations of both transports return the
registry unchanged — no session is added or removed, and the stored game
(its cursor and terminal flag included) is exactly the one that was there
before. -/
theorem status_and_hint_are_pure_reads (games : Registry) (game_id : String)
    (g : Game) (count : Int)
    (hstored : regGet games game_id = some g) (hcount : 1 ≤ count) :
    (get_game_status games game_id).2 = games ∧
    (get_hint games game_id count).2 = games ∧
    (get_pi_hint games game_id count).2 = games ∧
    (mcp_get_game_status games game_id).2 = games ∧
    regGet (get_hint games game_id count).2 game_id = some g := by
  have h1 : (get_game_status games game_id).2 = games := by
    unfold get_game_status
    rw [hstored]
  have h2 : (get_hint games game_id count).2 = games := by
    unfold get_hint
    rw [hstored]
    by_cases hc : g.is_complete
    · simp [hc]
    · by_cases hn : count < 1
      · simp [hc, hn]
      · simp [hc, hn]
  have h3 : (get_pi_hint games game_id count).2 = games := by
    unfold get_pi_hint
    rw [hstored]
    by_cases hc : g.is_complete
    · simp [hc]
    · simp [hc]
  have h4 : (mcp_get_game_status games game_id).2 = games := by
    unfold mcp_get_game_status
    rw [hstored]
  refine ⟨h1, h2, h3, h4, ?_⟩
  rw [h2]
  exact hstored

/-- Witness for C10: with one game stored (cursor 2, not terminal), the
four status/hint reads with count 1 all leave the registry as it was. -/
theorem status_and_hint_are_pure_reads_witness :
    (get_hint [("g1", (⟨piSample, 2, false⟩ : Game))] "g1" 1).2 =
      [("g1", (⟨piSample, 2, false⟩ : Game))] ∧
    regGet (get_hint [("g1", (⟨piSample, 2, false⟩ : Game))] "g1" 1).2 "g1" =
      some ⟨piSample, 2, false⟩ := by
  have h := status_and_hint_are_pure_reads
    [("g1", (⟨piSample, 2, false⟩ : Game))] "g1" ⟨piSample, 2, false⟩ 1
    (by decide) (by decide)
  exact ⟨h.2.1, h.2.2.2.2⟩

/-- The method names that class Game in src/game_logic.py actually
defines. -/
def gameDefinedMethods : List String :=
  ["__init__", "start", "check_input", "play"]

/-- The Game methods the HTTP play handler (`play_turn` in
backend/routes.py) invokes on the stored game object: `is_exit`,
`is_valid_input`, `check_input` and `is_complete`. -/
def playTurnGameMethods : List String :=
  ["is_exit", "is_valid_input", "check_input", "is_complete"]

/-- Claim C8 evaluated on the code: of the four Game methods the HTTP play
handler invokes, only `check_input` is defined by the Game class of
src/game_logic.py — `is_exit`, `is_valid_input` and `is_complete` are
invoked but undefined, so the handler's first Game call raises
`AttributeError`. -/
theorem play_turn_invokes_undefined_game_methods :
    ("is_exit" ∈ playTurnGameMethods ∧ "is_exit" ∉ gameDefinedMethods) ∧
    ("is_valid_input" ∈ playTurnGameMethods ∧
      "is_valid_input" ∉ gameDefinedMethods) ∧
    ("is_complete" ∈ playTurnGameMethods ∧
      "is_complete" ∉ gameDefinedMethods) ∧
    ("check_input" ∈ playTurnGameMethods ∧
      "check_input" ∈ gameDefinedMethods) := by
  decide

end CanYouPi
